import Mathlib

/-!
Verification of the client-side streaming / turn-coordination protocol of the
ai_nutrition_companion repository.  Each definition is a shallow embedding of a
function from the JavaScript source (file and function named in its comment);
the theorems settle the frozen claims about the specification.
-/

namespace NutritionClient

/-! ## Turn coordinator (src/app/web/openai_ptalk/static/js/wsclient.js)

The DOM layer (ui.js `createMessageBubble` / `updateMessageBubbleContent`)
stores a raw-text string per bubble (`dataset.rawText`) and appends chunks to
it; we model the rendered chat as the list of bubbles in creation order, each
carrying its sender tag and accumulated raw text.  Bubble references
(`currentUserSpeechBubble`, `lastAiElem`) are indices into that list. -/

/-- One rendered chat bubble: sender tag ("user" or "ai") plus the accumulated
raw text (ui.js keeps it in `dataset.rawText`). -/
structure Bubble where
  sender : String
  content : String
deriving DecidableEq, Repr

/-- The `aiResponseBuffer` object of wsclient.js: accumulated assistant text
plus the `done` flag. -/
structure AiBuffer where
  content : String
  done : Bool
deriving DecidableEq, Repr

/-- Module-level mutable state of wsclient.js that the inbound message
handlers touch, plus the rendered bubble list.  `pendingTakeawayPayload`
models the withheld takeaway payload (an object in JS, hence truthy whenever
present). -/
structure ChatState where
  bubbles : List Bubble
  userTranscriptFinalized : Bool
  aiResponseBuffer : Option AiBuffer
  currentUserSpeechBubble : Option Nat
  lastAiElem : Option Nat
  pendingTakeawayPayload : Option String
deriving DecidableEq, Repr

/-- Initial state: wsclient.js initialises `userTranscriptFinalized = true`,
all references and buffers null, no bubbles rendered. -/
def initialChatState : ChatState :=
  { bubbles := []
    userTranscriptFinalized := true
    aiResponseBuffer := none
    currentUserSpeechBubble := none
    lastAiElem := none
    pendingTakeawayPayload := none }

/-- ui.js `createMessageBubble(sender, initialText)`: appends a new bubble
seeded with the given raw text and returns (new state, reference to the
bubble). -/
def createMessageBubble (s : ChatState) (sender content : String) :
    ChatState × Nat :=
  ({ s with bubbles := s.bubbles ++ [⟨sender, content⟩] }, s.bubbles.length)

/-- ui.js `updateMessageBubbleContent(bubble, chunk)`: appends the chunk to the
referenced bubbles raw text (no-op on a dangling reference, mirroring the
`if (!bubbleElement) return` guard). -/
def updateMessageBubbleContent (s : ChatState) (idx : Nat) (chunk : String) :
    ChatState :=
  match s.bubbles.get? idx with
  | some b => { s with bubbles := s.bubbles.set idx ⟨b.sender, b.content ++ chunk⟩ }
  | none => s

/-- wsclient.js `handleTextDelta(data)`.  `content` is `data.content`
(possibly absent; the code reads `data.content || ""`). -/
def handleTextDelta (s : ChatState) (content : Option String) : ChatState :=
  let chunk := content.getD ""
  if s.userTranscriptFinalized = false then
    match s.aiResponseBuffer with
    | none => { s with aiResponseBuffer := some ⟨chunk, false⟩ }
    | some b => { s with aiResponseBuffer := some ⟨b.content ++ chunk, b.done⟩ }
  else
    match s.lastAiElem with
    | none =>
      let buffered :=
        match s.aiResponseBuffer with
        | some b => b.content
        | none => ""
      let s1 := { s with aiResponseBuffer := none }
      let (s2, idx) := createMessageBubble s1 "ai" (buffered ++ chunk)
      { s2 with lastAiElem := some idx }
    | some idx => updateMessageBubbleContent s idx chunk

/-- wsclient.js `handleTextDone(data)`, including the trailing pending-takeaway
display (ui.js `displayTakeawayRecommendations` builds its own AI bubble,
modelled as appending one bubble). -/
def handleTextDone (s : ChatState) : ChatState :=
  let s1 :=
    if s.userTranscriptFinalized then
      { s with lastAiElem := none, aiResponseBuffer := none }
    else
      match s.aiResponseBuffer with
      | some b => { s with aiResponseBuffer := some ⟨b.content, true⟩ }
      | none => { s with aiResponseBuffer := some ⟨"", true⟩ }
  match s1.pendingTakeawayPayload with
  | some p =>
    { s1 with
      bubbles := s1.bubbles ++ [⟨"ai", p⟩]
      pendingTakeawayPayload := none }
  | none => s1

/-- wsclient.js `handleTranscriptDelta(data)`. -/
def handleTranscriptDelta (s : ChatState) (content : Option String) : ChatState :=
  let chunk := content.getD ""
  match s.currentUserSpeechBubble with
  | none =>
    let (s1, idx) := createMessageBubble s "user" chunk
    { s1 with currentUserSpeechBubble := some idx }
  | some idx => updateMessageBubbleContent s idx chunk

/-- wsclient.js `handleTranscriptDone(data)`: releases the user bubble, flushes
any buffered assistant content, finalises the transcript, closes the turn when
the buffered stream had already finished, and clears the buffer. -/
def handleTranscriptDone (s : ChatState) : ChatState :=
  let s0 := { s with currentUserSpeechBubble := none }
  let step1 : ChatState × Bool :=
    match s0.aiResponseBuffer with
    | some b =>
      if b.content = "" then (s0, true)
      else
        match s0.lastAiElem with
        | none =>
          let (t, idx) := createMessageBubble s0 "ai" b.content
          ({ t with lastAiElem := some idx }, true)
        | some idx => (updateMessageBubbleContent s0 idx b.content, true)
    | none => (s0, false)
  let s1 := step1.1
  let wasBufferProcessed := step1.2
  let s2 := { s1 with userTranscriptFinalized := true }
  let s3 :=
    if wasBufferProcessed then
      match s2.aiResponseBuffer with
      | some b => if b.done then { s2 with lastAiElem := none } else s2
      | none => s2
    else s2
  { s3 with aiResponseBuffer := none }

/-- wsclient.js `handleInputBufferCommitted(data)`. -/
def handleInputBufferCommitted (s : ChatState) : ChatState :=
  { s with userTranscriptFinalized := false, aiResponseBuffer := none }

/-- Inbound events the turn coordinator consumes (the JSON `type` values
handled by `handleWebSocketMessage`). -/
inductive WsEvent where
  | textDelta (content : Option String)
  | textDone
  | transcriptDelta (content : Option String)
  | transcriptDone
  | bufferCommitted
deriving DecidableEq, Repr

/-- Dispatch of one inbound event, mirroring the `switch (data.type)` in
`handleWebSocketMessage`. -/
def wsStep (s : ChatState) : WsEvent → ChatState
  | .textDelta c => handleTextDelta s c
  | .textDone => handleTextDone s
  | .transcriptDelta c => handleTranscriptDelta s c
  | .transcriptDone => handleTranscriptDone s
  | .bufferCommitted => handleInputBufferCommitted s

/-- Process a sequence of inbound events in delivery order from the initial
state. -/
def runEvents (es : List WsEvent) : ChatState :=
  es.foldl wsStep initialChatState

/-- The assistant bubbles currently rendered, in creation order. -/
def aiBubbles (s : ChatState) : List Bubble :=
  s.bubbles.filter (fun b => b.sender == "ai")

/-- C1: for the event sequence buffer-committed, assistant-text-delta "A",
assistant-text-delta "B", user-transcript-done, no assistant bubble exists
after any proper prefix of the sequence, and processing user-transcript-done
creates exactly one assistant bubble whose content is exactly "AB". -/
theorem C1_turn_buffering :
    aiBubbles (runEvents [.bufferCommitted]) = []
    ∧ aiBubbles (runEvents [.bufferCommitted, .textDelta (some "A")]) = []
    ∧ aiBubbles (runEvents
        [.bufferCommitted, .textDelta (some "A"), .textDelta (some "B")]) = []
    ∧ aiBubbles (runEvents
        [.bufferCommitted, .textDelta (some "A"), .textDelta (some "B"),
          .transcriptDone]) = [⟨"ai", "AB"⟩] := by
  decide

/-- C2: for the event sequence buffer-committed, assistant-text-delta "X",
assistant-text-done, user-transcript-done, afterwards the assistant bubble
shows "X", the active assistant bubble reference is null and the pending
assistant buffer is null, so the next turn starts with no stale state. -/
theorem C2_early_completion :
    aiBubbles (runEvents
        [.bufferCommitted, .textDelta (some "X"), .textDone, .transcriptDone])
      = [⟨"ai", "X"⟩]
    ∧ (runEvents
        [.bufferCommitted, .textDelta (some "X"), .textDone, .transcriptDone]).lastAiElem
      = none
    ∧ (runEvents
        [.bufferCommitted, .textDelta (some "X"), .textDone, .transcriptDone]).aiResponseBuffer
      = none := by
  decide

/-! ## Audio playback (src/app/web/openai_ptalk/static/js/audio.js)

`playAudioChunk` enqueues a base64 fragment and starts the drain when idle;
`playNextAudioChunk` pops the head, skips it when it fails to decode (either
`base64ToArrayBuffer` yielding an empty buffer or `decodeAudioData` failing,
both of which recurse immediately), and otherwise starts playback whose
`onended` callback continues the drain.  Decoding is abstracted as a predicate
`decode : String → Bool` (true iff the fragment yields a playable buffer);
because the code only ever decodes the fragment it just popped and pops the
next one only from the completion path of the previous, decode steps are
serialised exactly as in the source. -/

/-- Playback state of audio.js: the pending queue, the `isPlaying` flag, and
the observable trace of playback invocations (`source.start()` calls) in
order. -/
structure PlayState where
  audioQueue : List String
  isPlaying : Bool
  played : List String
deriving DecidableEq, Repr

/-- Idle playback state (module initialisation of audio.js). -/
def initialPlayState : PlayState := ⟨[], false, []⟩

/-- The skipping loop inside `playNextAudioChunk`: walk the queue past
fragments that fail to decode and return the first decodable fragment together
with the remaining queue, or none when the queue drains empty. -/
def drainAux (decode : String → Bool) : List String → Option (String × List String)
  | [] => none
  | f :: rest => if decode f then some (f, rest) else drainAux decode rest

/-- audio.js `playNextAudioChunk`: empty queue marks playback idle; a decode
failure logs and recurses onto the next fragment; a success starts playback
(recorded in `played`) and leaves `isPlaying` set until `onended`. -/
def playNextAudioChunk (decode : String → Bool) (s : PlayState) : PlayState :=
  match drainAux decode s.audioQueue with
  | none => { audioQueue := [], isPlaying := false, played := s.played }
  | some (f, rest) => { audioQueue := rest, isPlaying := true, played := s.played ++ [f] }

/-- audio.js `playAudioChunk(base64Audio)`: a missing payload (null, undefined
or the falsy empty string) returns immediately; otherwise the fragment is
appended to the queue and the drain starts only when playback is idle. -/
def playAudioChunk (decode : String → Bool) (s : PlayState)
    (payload : Option String) : PlayState :=
  match payload with
  | none => s
  | some f =>
    if f = "" then s
    else
      let s1 := { s with audioQueue := s.audioQueue ++ [f] }
      if s1.isPlaying then s1 else playNextAudioChunk decode s1

/-- The `source.onended` continuation: fires only while a fragment is playing
and then continues the drain. -/
def onPlaybackEnded (decode : String → Bool) (s : PlayState) : PlayState :=
  if s.isPlaying then playNextAudioChunk decode s else s

/-- External stimuli of the playback subsystem: an enqueue (with its possibly
missing payload) or the completion of the fragment currently playing. -/
inductive PlayEvent where
  | enqueue (payload : Option String)
  | ended
deriving DecidableEq, Repr

/-- One stimulus step. -/
def playStep (decode : String → Bool) (s : PlayState) : PlayEvent → PlayState
  | .enqueue p => playAudioChunk decode s p
  | .ended => onPlaybackEnded decode s

/-- Run a stimulus trace from the idle state. -/
def runPlay (decode : String → Bool) (es : List PlayEvent) : PlayState :=
  es.foldl (playStep decode) initialPlayState

/-- Enqueue stimuli for the fragments F1..Fn in order. -/
def enqueueEvents (fs : List String) : List PlayEvent :=
  fs.map (fun f => .enqueue (some f))

/-- n playback-completion stimuli. -/
def endedEvents (n : Nat) : List PlayEvent :=
  List.replicate n .ended

/-- The non-missing payloads an event trace enqueues, in order (missing and
empty payloads are rejected by `playAudioChunk` up front). -/
def enqueuedPayloads (es : List PlayEvent) : List String :=
  es.filterMap (fun e =>
    match e with
    | .enqueue (some f) => if f = "" then none else some f
    | _ => none)

theorem drainAux_eq_none {decode : String → Bool} {q : List String}
    (h : drainAux decode q = none) : q.filter decode = [] := by
  induction q with
  | nil => rfl
  | cons f rest ih =>
    by_cases hf : decode f
    · simp [drainAux, hf] at h
    · simp [drainAux, hf] at h
      simp [List.filter_cons, hf, ih h]

theorem drainAux_eq_some {decode : String → Bool} {q rest : List String}
    {f : String} (h : drainAux decode q = some (f, rest)) :
    q.filter decode = f :: rest.filter decode := by
  induction q with
  | nil => simp [drainAux] at h
  | cons g q0 ih =>
    by_cases hg : decode g
    · simp [drainAux, hg] at h
      obtain ⟨rfl, rfl⟩ := h
      simp [List.filter_cons, hg]
    · simp [drainAux, hg] at h
      simp [List.filter_cons, hg, ih h]

theorem drainAux_length {decode : String → Bool} {q rest : List String}
    {f : String} (h : drainAux decode q = some (f, rest)) :
    rest.length < q.length := by
  induction q with
  | nil => simp [drainAux] at h
  | cons g q0 ih =>
    by_cases hg : decode g
    · simp [drainAux, hg] at h
      simp [h.2]
    · simp [drainAux, hg] at h
      exact Nat.lt_succ_of_lt (ih h)

theorem enqueues_while_playing (decode : String → Bool) (fs : List String)
    (hfs : ∀ f ∈ fs, f ≠ "") :
    ∀ q p, (enqueueEvents fs).foldl (playStep decode) ⟨q, true, p⟩
      = ⟨q ++ fs, true, p⟩ := by
  induction fs with
  | nil => intro q p; simp [enqueueEvents]
  | cons f fs0 ih =>
    intro q p
    have hf : f ≠ "" := hfs f (by simp)
    have hrest : ∀ g ∈ fs0, g ≠ "" := fun g hg => hfs g (by simp [hg])
    simp only [enqueueEvents, List.map_cons, List.foldl_cons]
    have hstep : playStep decode ⟨q, true, p⟩ (.enqueue (some f))
        = ⟨q ++ [f], true, p⟩ := by
      simp [playStep, playAudioChunk, hf]
    rw [hstep]
    have := ih hrest (q ++ [f]) p
    simp only [enqueueEvents] at this
    rw [this]
    simp

theorem enqueues_from_idle (decode : String → Bool) (fs : List String)
    (hfs : ∀ f ∈ fs, f ≠ "") :
    ∀ p, (enqueueEvents fs).foldl (playStep decode) ⟨[], false, p⟩
      = (match drainAux decode fs with
          | none => ⟨[], false, p⟩
          | some (f, rest) => ⟨rest, true, p ++ [f]⟩) := by
  induction fs with
  | nil => intro p; simp [enqueueEvents, drainAux]
  | cons f fs0 ih =>
    intro p
    have hf : f ≠ "" := hfs f (by simp)
    have hrest : ∀ g ∈ fs0, g ≠ "" := fun g hg => hfs g (by simp [hg])
    simp only [enqueueEvents, List.map_cons, List.foldl_cons]
    by_cases hdec : decode f
    · have hstep : playStep decode ⟨[], false, p⟩ (.enqueue (some f))
          = ⟨[], true, p ++ [f]⟩ := by
        simp [playStep, playAudioChunk, hf, playNextAudioChunk, drainAux, hdec]
      rw [hstep]
      have := enqueues_while_playing decode fs0 hrest [] (p ++ [f])
      simp only [enqueueEvents] at this
      rw [this]
      simp [drainAux, hdec]
    · have hstep : playStep decode ⟨[], false, p⟩ (.enqueue (some f))
          = ⟨[], false, p⟩ := by
        simp [playStep, playAudioChunk, hf, playNextAudioChunk, drainAux, hdec]
      rw [hstep]
      have := ih hrest p
      simp only [enqueueEvents] at this
      rw [this]
      simp [drainAux, hdec]

theorem endeds_on_idle (decode : String → Bool) (n : Nat) (p : List String) :
    (endedEvents n).foldl (playStep decode) ⟨[], false, p⟩ = ⟨[], false, p⟩ := by
  induction n with
  | zero => simp [endedEvents]
  | succ m ih =>
    simp only [endedEvents, List.replicate_succ, List.foldl_cons]
    have hstep : playStep decode ⟨[], false, p⟩ .ended = ⟨[], false, p⟩ := by
      simp [playStep, onPlaybackEnded]
    rw [hstep]
    simpa [endedEvents] using ih

theorem endeds_drain (decode : String → Bool) :
    ∀ q : List String, ∀ n p, q.length + 1 ≤ n →
      (endedEvents n).foldl (playStep decode) ⟨q, true, p⟩
        = ⟨[], false, p ++ q.filter decode⟩ := by
  intro q
  induction q with
  | nil =>
    intro n p hn
    obtain ⟨m, rfl⟩ : ∃ m, n = m + 1 := ⟨n - 1, by omega⟩
    simp only [endedEvents, List.replicate_succ, List.foldl_cons]
    have hstep : playStep decode ⟨[], true, p⟩ .ended = ⟨[], false, p⟩ := by
      simp [playStep, onPlaybackEnded, playNextAudioChunk, drainAux]
    rw [hstep]
    simpa using endeds_on_idle decode m p
  | cons f q0 ih =>
    intro n p hn
    obtain ⟨m, rfl⟩ : ∃ m, n = m + 1 := ⟨n - 1, by omega⟩
    by_cases hdec : decode f
    · have hstep : playStep decode ⟨f :: q0, true, p⟩ .ended
          = ⟨q0, true, p ++ [f]⟩ := by
        simp [playStep, onPlaybackEnded, playNextAudioChunk, drainAux, hdec]
      have hsplit : (endedEvents (m + 1)).foldl (playStep decode) ⟨f :: q0, true, p⟩
          = (endedEvents m).foldl (playStep decode) ⟨q0, true, p ++ [f]⟩ := by
        simp only [endedEvents, List.replicate_succ, List.foldl_cons, hstep]
      rw [hsplit, ih m (p ++ [f]) (by simp at hn; omega)]
      simp [List.filter_cons, hdec]
    · have hstep : playStep decode ⟨f :: q0, true, p⟩ .ended
          = playStep decode ⟨q0, true, p⟩ .ended := by
        simp [playStep, onPlaybackEnded, playNextAudioChunk, drainAux, hdec]
      have hsplit : (endedEvents (m + 1)).foldl (playStep decode) ⟨f :: q0, true, p⟩
          = (endedEvents m).foldl (playStep decode)
              (playStep decode ⟨q0, true, p⟩ .ended) := by
        simp only [endedEvents, List.replicate_succ, List.foldl_cons, hstep]
      have hjoin : (endedEvents (m + 1)).foldl (playStep decode) ⟨q0, true, p⟩
          = (endedEvents m).foldl (playStep decode)
              (playStep decode ⟨q0, true, p⟩ .ended) := by
        simp only [endedEvents, List.replicate_succ, List.foldl_cons]
      rw [hsplit, ← hjoin, ih (m + 1) p (by simp at hn; omega)]
      simp [List.filter_cons, hdec]

/-- Canonical playback run: enqueue the fragments F1..Fn in order, then let
every started fragment finish.  The fragments played are exactly the decodable
fragments, in enqueue order. -/
theorem runPlay_canonical (decode : String → Bool) (fs : List String)
    (hfs : ∀ f ∈ fs, f ≠ "") :
    runPlay decode (enqueueEvents fs ++ endedEvents fs.length)
      = ⟨[], false, fs.filter decode⟩ := by
  unfold runPlay
  rw [List.foldl_append]
  have hstart : initialPlayState = (⟨[], false, []⟩ : PlayState) := rfl
  rw [hstart, enqueues_from_idle decode fs hfs []]
  rcases h : drainAux decode fs with _ | ⟨f, rest⟩ <;> dsimp only [List.nil_append]
  · rw [endeds_on_idle]
    simp [drainAux_eq_none h]
  · have hlen : rest.length + 1 ≤ fs.length := drainAux_length h
    rw [endeds_drain decode rest fs.length [f] hlen]
    simp [drainAux_eq_some h]

theorem drainAux_sublist {decode : String → Bool} {q rest : List String}
    {f : String} (h : drainAux decode q = some (f, rest)) :
    (f :: rest).Sublist q := by
  induction q with
  | nil => simp [drainAux] at h
  | cons g q0 ih =>
    by_cases hg : decode g
    · simp [drainAux, hg] at h
      obtain ⟨rfl, rfl⟩ := h
      exact List.Sublist.refl _
    · simp [drainAux, hg] at h
      exact (ih h).trans (List.sublist_cons_self g q0)

theorem playNext_sublist (decode : String → Bool) (s : PlayState) :
    ((playNextAudioChunk decode s).played ++ (playNextAudioChunk decode s).audioQueue).Sublist
      (s.played ++ s.audioQueue) := by
  rcases h : drainAux decode s.audioQueue with _ | ⟨f, rest⟩
  · simp [playNextAudioChunk, h]
  · simp [playNextAudioChunk, h]
    exact drainAux_sublist h

theorem playStep_sublist (decode : String → Bool) (s : PlayState) (e : PlayEvent) :
    ((playStep decode s e).played ++ (playStep decode s e).audioQueue).Sublist
      ((s.played ++ s.audioQueue) ++ enqueuedPayloads [e]) := by
  cases e with
  | ended =>
    simp only [playStep, onPlaybackEnded, enqueuedPayloads, List.filterMap]
    by_cases hp : s.isPlaying
    · simpa [hp] using playNext_sublist decode s
    · simp [hp]
  | enqueue payload =>
    match payload with
    | none =>
      simp [playStep, playAudioChunk, enqueuedPayloads, List.filterMap]
    | some f =>
      by_cases hf : f = ""
      · simp [playStep, playAudioChunk, hf, enqueuedPayloads, List.filterMap]
      · have heps : enqueuedPayloads [.enqueue (some f)] = [f] := by
          simp [enqueuedPayloads, List.filterMap, hf]
        rw [heps]
        simp only [playStep, playAudioChunk, hf, if_neg hf]
        by_cases hp : s.isPlaying
        · simp only [hp, if_pos]
          simp
        · simp only [hp]
          have h1 := playNext_sublist decode
            ⟨s.audioQueue ++ [f], s.isPlaying, s.played⟩
          simp only [Bool.false_eq_true, if_false]
          refine h1.trans ?_
          simp

theorem runPlay_sublist_aux (decode : String → Bool) :
    ∀ (es : List PlayEvent) (s : PlayState) (E : List String),
      (s.played ++ s.audioQueue).Sublist E →
      (((es.foldl (playStep decode) s).played
          ++ (es.foldl (playStep decode) s).audioQueue)).Sublist
        (E ++ enqueuedPayloads es) := by
  intro es
  induction es with
  | nil => intro s E h; simpa [enqueuedPayloads] using h
  | cons e es0 ih =>
    intro s E h
    simp only [List.foldl_cons]
    have hstep := (playStep_sublist decode s e).trans
      (List.Sublist.append h (List.Sublist.refl (enqueuedPayloads [e])))
    have := ih (playStep decode s e) (E ++ enqueuedPayloads [e]) hstep
    refine this.trans ?_
    have : E ++ enqueuedPayloads (e :: es0)
        = (E ++ enqueuedPayloads [e]) ++ enqueuedPayloads es0 := by
      simp [enqueuedPayloads, List.filterMap_cons]
      cases e with
      | ended => simp
      | enqueue p =>
        match p with
        | none => simp
        | some f =>
          by_cases hf : f = "" <;> simp [hf]
    rw [this]

/-- Any event trace: the playback invocations form an order-preserving
subsequence of the enqueued payloads. -/
theorem runPlay_sublist (decode : String → Bool) (es : List PlayEvent) :
    ((runPlay decode es).played).Sublist (enqueuedPayloads es) := by
  have h := runPlay_sublist_aux decode es initialPlayState []
    (by simp [initialPlayState])
  simp only [List.nil_append] at h
  exact (List.sublist_append_left _ _).trans h

/-- C3: for every sequence of fragments F1..Fn enqueued through
`playAudioChunk`, the sequence of playback invocations equals the enqueue
order when every fragment decodes (canonical run: all enqueues, then each
started fragment completes); moreover for an arbitrary interleaving of
enqueues and completions, under any decode behaviour, playback order is an
order-preserving subsequence of enqueue order — fragments are never
reordered.  Playback is serialised by construction (the drain pops exactly
one fragment per completion of the previous), so no two fragments play
concurrently. -/
theorem C3_playback_order (fs : List String) (h : ∀ f ∈ fs, f ≠ "") :
    (runPlay (fun _ => true) (enqueueEvents fs ++ endedEvents fs.length)).played = fs
    ∧ ∀ (decode : String → Bool) (es : List PlayEvent),
        ((runPlay decode es).played).Sublist (enqueuedPayloads es) := by
  constructor
  · rw [runPlay_canonical _ fs h]
    simp
  · intro decode es
    exact runPlay_sublist decode es

/-- C3, closed instance: three fragments enqueued and played to completion
come out in enqueue order. -/
theorem C3_playback_order_witness :
    (runPlay (fun _ => true)
        (enqueueEvents ["F1", "F2", "F3"] ++ endedEvents 3)).played
      = ["F1", "F2", "F3"] :=
  (C3_playback_order ["F1", "F2", "F3"] (by decide)).1

/-- C4: for every enqueued sequence F1..Fn and every decode behaviour, the
fragments played (canonical run) are exactly the decodable ones, in order:
every fragment that fails to decode — including a base64 failure yielding an
empty buffer — is skipped exactly once and never stops the drain. -/
theorem C4_decode_failure_isolation (decode : String → Bool) (fs : List String)
    (h : ∀ f ∈ fs, f ≠ "") :
    (runPlay decode (enqueueEvents fs ++ endedEvents fs.length)).played
      = fs.filter decode := by
  rw [runPlay_canonical decode fs h]

/-- C4, closed instance: with the middle fragment undecodable, the first and
third still play, in order, and the middle one is skipped. -/
theorem C4_decode_failure_isolation_witness :
    (runPlay (fun f => !(f == "F2"))
        (enqueueEvents ["F1", "F2", "F3"] ++ endedEvents 3)).played
      = ["F1", "F3"] :=
  (C4_decode_failure_isolation (fun f => !(f == "F2")) ["F1", "F2", "F3"]
    (by decide)).trans (by decide)

/-- C10: calling `playAudioChunk` with a missing payload (null/undefined,
modelled as none, or the falsy empty string) leaves the playback state —
queue, `isPlaying` flag and play trace — completely unchanged and starts no
drain. -/
theorem C10_enqueue_missing_payload (decode : String → Bool) (s : PlayState) :
    playAudioChunk decode s none = s ∧ playAudioChunk decode s (some "") = s := by
  constructor
  · rfl
  · simp [playAudioChunk]

/-! ## Reconnect backoff (src/tests/test_weekly_review_display.js)

Module state: `reconnectAttempts` (0), `maxReconnectAttempts` (5) and
`reconnectDelay` (1000 ms).  `ws.onclose` schedules a reconnect after
`min(reconnectDelay * 1.5 ^ reconnectAttempts, 10000)` while the page is
visible and the attempt counter is below the cap, then increments the counter;
`ws.onopen` resets counter and delay.  The delays involved (1000 · 1.5^k for
k ≤ 4, and the cap 10000) are all exactly representable IEEE doubles and every
operation is exact, so rational arithmetic models the JS computation
exactly. -/

/-- Reconnect bookkeeping of test_weekly_review_display.js. -/
structure ReconnState where
  reconnectAttempts : Nat
  reconnectDelay : ℚ
deriving DecidableEq, Repr

/-- The fixed attempt cap `maxReconnectAttempts = 5`. -/
def maxReconnectAttempts : Nat := 5

/-- Module initialisation: zero attempts, 1000 ms base delay. -/
def initialReconnState : ReconnState := ⟨0, 1000⟩

/-- The `ws.onopen` handler: reset the attempt counter and the delay to their
base values. -/
def wsOnOpen (_s : ReconnState) : ReconnState := ⟨0, 1000⟩

/-- JavaScript `Math.min` on two (finite) numbers. -/
def jsMin (a b : ℚ) : ℚ := if a ≤ b then a else b

/-- The `ws.onclose` handler, restricted to its backoff bookkeeping: when the
page is visible and attempts remain under the cap, compute the capped
exponential delay, schedule a reconnect after it (returned as `some delay`)
and increment the counter; otherwise schedule nothing. -/
def wsOnClose (visible : Bool) (s : ReconnState) : ReconnState × Option ℚ :=
  if visible ∧ s.reconnectAttempts < maxReconnectAttempts then
    let delay := jsMin (s.reconnectDelay * (3 / 2 : ℚ) ^ s.reconnectAttempts) 10000
    ({ s with reconnectAttempts := s.reconnectAttempts + 1 }, some delay)
  else (s, none)

/-- n consecutive unexpected closes with the page visible and no intervening
open: returns the final state and the scheduled delays in order. -/
def closeSeq : Nat → ReconnState → ReconnState × List (Option ℚ)
  | 0, s => (s, [])
  | n + 1, s =>
    let step := wsOnClose true s
    let rest := closeSeq n step.1
    (rest.1, step.2 :: rest.2)

/-- The delays scheduled by 5 consecutive unexpected closes from the initial
state. -/
def fiveCloseDelays : List (Option ℚ) := (closeSeq 5 initialReconnState).2

/-- The reconnect state after those 5 closes. -/
def stateAfterFiveCloses : ReconnState := (closeSeq 5 initialReconnState).1

/-- C5: for 5 consecutive unexpected closes from the initial state, a delay is
scheduled each time, the delays are 1000, 1500, 2250, 3375, 5062.5 ms — a
non-decreasing sequence bounded by the 10000 ms cap — after the 5th failed
attempt a further close schedules no reconnect, and a successful open resets
the counter and delay to their base values. -/
theorem C5_reconnect_backoff :
    fiveCloseDelays
      = [some 1000, some 1500, some 2250, some 3375, some (10125 / 2)]
    ∧ List.Chain' (· ≤ ·) (fiveCloseDelays.filterMap id)
    ∧ (fiveCloseDelays.filterMap id).Forall (fun d => d ≤ 10000)
    ∧ (wsOnClose true stateAfterFiveCloses).2 = none
    ∧ wsOnOpen stateAfterFiveCloses = initialReconnState := by
  have h5 : closeSeq 5 initialReconnState
      = (⟨5, 1000⟩,
        [some 1000, some 1500, some 2250, some 3375, some (10125 / 2)]) := by
    norm_num [closeSeq, wsOnClose, jsMin, maxReconnectAttempts, initialReconnState]
  have hd : fiveCloseDelays
      = [some 1000, some 1500, some 2250, some 3375, some (10125 / 2)] := by
    unfold fiveCloseDelays
    rw [h5]
  have hs : stateAfterFiveCloses = ⟨5, 1000⟩ := by
    unfold stateAfterFiveCloses
    rw [h5]
  refine ⟨hd, ?_, ?_, ?_, ?_⟩
  · rw [hd]
    simp only [List.filterMap_cons, List.filterMap_nil, id_eq]
    norm_num [List.chain'_cons]
  · rw [hd]
    simp only [List.filterMap_cons, List.filterMap_nil, id_eq]
    norm_num [List.Forall]
  · rw [hs]
    norm_num [wsOnClose, maxReconnectAttempts]
  · rw [hs]
    rfl

/-! ## Server-error handling

Two implementations are cited by the spec sentence.  In
src/app/web/openai_ptalk/static/main.js, `handleServerError` sets the status
line and calls that files `resetStateAfterError`, which nulls both bubble
references, clears the buffer, and sets `userTranscriptFinalized = true`.  In
src/unnamed/part_001, `resetStateAfterError` only nulls the two bubble
references (the message is surfaced to the console/debug log). -/

/-- JavaScript `m || d` on an optional string: null/undefined and the empty
string are falsy. -/
def jsOrDefault (m : Option String) (d : String) : String :=
  match m with
  | none => d
  | some s => if s = "" then d else s

/-- Turn-coordination state of main.js (openai_ptalk) as touched by its error
path, the surfaced status line included. -/
structure MainState where
  userTranscriptFinalized : Bool
  aiResponseBuffer : Option AiBuffer
  currentUserSpeechBubble : Option Nat
  lastAiElem : Option Nat
  statusMessage : String
deriving DecidableEq, Repr

/-- main.js `resetStateAfterError(reason)`: nulls both bubble references,
resets `userTranscriptFinalized` to true and the buffer to null. -/
def mainResetStateAfterError (s : MainState) : MainState :=
  { s with
    currentUserSpeechBubble := none
    lastAiElem := none
    userTranscriptFinalized := true
    aiResponseBuffer := none }

/-- main.js `handleServerError(data)`: surface the message through
`setStatus`, then reset the transient state. -/
def mainHandleServerError (s : MainState) (message : Option String) : MainState :=
  let errorMsg := jsOrDefault message "Unknown server error"
  mainResetStateAfterError { s with statusMessage := "Error: " ++ errorMsg }

/-- Turn-coordination state of src/unnamed/part_001 as touched by its error
path. -/
structure P1State where
  userTranscriptFinalized : Bool
  aiResponseBuffer : Option AiBuffer
  currentUserSpeechBubble : Option Nat
  lastAiElem : Option Nat
deriving DecidableEq, Repr

/-- part_001 `resetStateAfterError(reason)`: nulls the two bubble references
and nothing else. -/
def p1ResetStateAfterError (s : P1State) : P1State :=
  { s with currentUserSpeechBubble := none, lastAiElem := none }

/-- part_001 `handleServerError(data)`: logs the message and resets the bubble
references. -/
def p1HandleServerError (s : P1State) (_message : Option String) : P1State :=
  p1ResetStateAfterError s

/-- C6 counterexample: in the cited main.js implementation, processing a
server-error event from a state in which `userTranscriptFinalized` is false
does not leave the flag unchanged — `resetStateAfterError` forces it to
true. -/
theorem C6_server_error_counterexample :
    ¬ ((mainHandleServerError
          ⟨false, some ⟨"x", false⟩, some 0, some 1, ""⟩
          (some "boom")).userTranscriptFinalized
        = (⟨false, some ⟨"x", false⟩, some 0, some 1, ""⟩ : MainState).userTranscriptFinalized) := by
  decide

/-- C6 amended: processing a server-error event nulls both active bubble
references and surfaces the error message in every implementation; the
main.js implementation additionally forces `userTranscriptFinalized` to true
and clears the pending buffer (so the flag is preserved only when it was
already true), while the part_001 implementation leaves both the flag and the
buffer untouched. -/
theorem C6_server_error_amended (s : MainState) (m : Option String)
    (t : P1State) (m2 : Option String) :
    (mainHandleServerError s m).currentUserSpeechBubble = none
    ∧ (mainHandleServerError s m).lastAiElem = none
    ∧ (mainHandleServerError s m).userTranscriptFinalized = true
    ∧ (mainHandleServerError s m).aiResponseBuffer = none
    ∧ (mainHandleServerError s m).statusMessage
        = "Error: " ++ jsOrDefault m "Unknown server error"
    ∧ (p1HandleServerError t m2).currentUserSpeechBubble = none
    ∧ (p1HandleServerError t m2).lastAiElem = none
    ∧ (p1HandleServerError t m2).userTranscriptFinalized = t.userTranscriptFinalized
    ∧ (p1HandleServerError t m2).aiResponseBuffer = t.aiResponseBuffer := by
  exact ⟨rfl, rfl, rfl, rfl, rfl, rfl, rfl, rfl, rfl⟩

/-! ## Transport connect (src/app/web/openai_ptalk/static/js/wsclient.js and
src/unnamed/part_001)

`connect()` guards only on `isConnected()` — `wsConnected` and
`readyState === OPEN` — so a socket still in the CONNECTING readyState does
not stop it from constructing a fresh WebSocket.  part_001s `initWebSocket`
guards on OPEN-or-CONNECTING and is a no-op in both. -/

/-- WebSocket readyState values. -/
inductive ReadyState where
  | CONNECTING
  | OPEN
  | CLOSING
  | CLOSED
deriving DecidableEq, Repr, BEq

/-- One WebSocket object: an identity (so that constructing a new socket is
observable) plus its readyState. -/
structure SocketConn where
  id : Nat
  readyState : ReadyState
deriving DecidableEq, Repr

/-- Transport-side module state: the socket reference, the `wsConnected`
flag, a fresh-identity counter for `new WebSocket(...)`, and the connection
UI state string. -/
structure TransportState where
  ws : Option SocketConn
  wsConnected : Bool
  nextSocketId : Nat
  connectionUI : String
deriving DecidableEq, Repr

/-- wsclient.js `isConnected()`: `wsConnected && ws && ws.readyState ===
WebSocket.OPEN`. -/
def isConnected (s : TransportState) : Bool :=
  s.wsConnected &&
    (match s.ws with
     | some c => c.readyState == ReadyState.OPEN
     | none => false)

/-- wsclient.js `connect()`: returns immediately when `isConnected()`;
otherwise sets the UI to CONNECTING and constructs a new WebSocket (a fresh
identity, initially in the CONNECTING readyState). -/
def connect (s : TransportState) : TransportState :=
  if isConnected s then s
  else
    { ws := some ⟨s.nextSocketId, ReadyState.CONNECTING⟩
      wsConnected := s.wsConnected
      nextSocketId := s.nextSocketId + 1
      connectionUI := "CONNECTING" }

/-- part_001 `initWebSocket(onOpenCallback)`: returns (invoking the callback
when already open) if a socket exists in the OPEN or CONNECTING readyState;
otherwise constructs a new WebSocket.  Second component: whether the callback
was invoked immediately. -/
def initWebSocket (s : TransportState) : TransportState × Bool :=
  match s.ws with
  | some c =>
    if c.readyState == ReadyState.OPEN || c.readyState == ReadyState.CONNECTING then
      (s, c.readyState == ReadyState.OPEN)
    else
      ({ s with
          ws := some ⟨s.nextSocketId, ReadyState.CONNECTING⟩
          nextSocketId := s.nextSocketId + 1 }, false)
  | none =>
    ({ s with
        ws := some ⟨s.nextSocketId, ReadyState.CONNECTING⟩
        nextSocketId := s.nextSocketId + 1 }, false)

/-- C7 counterexample: with a socket still CONNECTING (so `wsConnected` is
still false), wsclient.js `connect()` is not a no-op — it constructs a new
connection object, replacing the in-flight one. -/
theorem C7_connect_counterexample :
    (connect ⟨some ⟨0, ReadyState.CONNECTING⟩, false, 1, "CONNECTING"⟩).ws
        ≠ (⟨some ⟨0, ReadyState.CONNECTING⟩, false, 1, "CONNECTING"⟩ : TransportState).ws
    ∧ connect ⟨some ⟨0, ReadyState.CONNECTING⟩, false, 1, "CONNECTING"⟩
        ≠ ⟨some ⟨0, ReadyState.CONNECTING⟩, false, 1, "CONNECTING"⟩ := by
  decide

/-- C7 amended: wsclient.js `connect()` is a no-op when the transport is
already CONNECTED (`isConnected()` true) — but not while CONNECTING; only the
part_001 `initWebSocket` variant is a no-op (no new connection object, state
unchanged) in both the OPEN and CONNECTING readyStates. -/
theorem C7_connect_amended (s : TransportState) (h : isConnected s = true)
    (t : TransportState) (c : SocketConn) (h2 : t.ws = some c)
    (h3 : c.readyState = ReadyState.OPEN ∨ c.readyState = ReadyState.CONNECTING) :
    connect s = s ∧ (initWebSocket t).1 = t := by
  constructor
  · unfold connect
    rw [h]
    rfl
  · rcases h3 with h3 | h3 <;> simp only [initWebSocket, h2, h3] <;> rfl

/-- C7 amended, closed instance: a CONNECTED transport is untouched by
`connect()`, and a CONNECTING one is untouched by `initWebSocket`. -/
theorem C7_connect_amended_witness :
    connect ⟨some ⟨0, ReadyState.OPEN⟩, true, 1, "CONNECTED"⟩
        = ⟨some ⟨0, ReadyState.OPEN⟩, true, 1, "CONNECTED"⟩
    ∧ (initWebSocket ⟨some ⟨0, ReadyState.CONNECTING⟩, false, 1, "CONNECTING"⟩).1
        = ⟨some ⟨0, ReadyState.CONNECTING⟩, false, 1, "CONNECTING"⟩ :=
  C7_connect_amended ⟨some ⟨0, ReadyState.OPEN⟩, true, 1, "CONNECTED"⟩ (by decide)
    ⟨some ⟨0, ReadyState.CONNECTING⟩, false, 1, "CONNECTING"⟩
    ⟨0, ReadyState.CONNECTING⟩ rfl (Or.inr rfl)

/-! ## PCM batching (src/app/web/openai_ptalk/static/js/audio.js,
`sendPCMDataToServer` and `concatAudioBuffers`)

Capture callbacks deliver Float32 fragments; each non-empty fragment that
passes the silence gate is converted to Int16 (clamp to the unit interval,
then scale: negative samples by 0x8000, non-negative by 0x7FFF, with the
Int16Array store truncating toward zero) and pushed onto `audioChunkBuffer`;
when the 200 ms batch timer fires, the buffered fragments are concatenated
byte-wise in push order and sent as one batch.  Samples are modelled as exact
rationals; every value reached in the claims (the clamp bounds and the
scaled boundaries ±1.0 ↦ 0x7FFF / -0x8000) is exactly representable and
exactly computed in IEEE doubles, so the rational model agrees with the JS
arithmetic there. -/

/-- JS `Math.max(-1, Math.min(1, v))`. -/
def clampSample (x : ℚ) : ℚ := max (-1) (min 1 x)

/-- The Int16Array element store: truncation toward zero (the value is always
within int16 range after clamping and scaling). -/
def truncToInt (x : ℚ) : ℤ := if 0 ≤ x then ⌊x⌋ else ⌈x⌉

/-- One sample of the conversion loop in `sendPCMDataToServer`:
`s = Math.max(-1, Math.min(1, f)); int16 = s < 0 ? s * 0x8000 : s * 0x7FFF`. -/
def floatToInt16 (x : ℚ) : ℤ :=
  let s := clampSample x
  if s < 0 then truncToInt (s * 32768) else truncToInt (s * 32767)

/-- The whole-fragment conversion to an Int16 buffer, in sample order. -/
def convertFragment (f : List ℚ) : List ℤ := f.map floatToInt16

/-- Mean absolute amplitude of a fragment (the VAD statistic `avg`). -/
def vadAvg (f : List ℚ) : ℚ := (f.map (fun x => |x|)).sum / f.length

/-- `isVoice = avg > 0.005`. -/
def isVoice (f : List ℚ) : Bool := decide (vadAvg f > 1 / 200)

/-- The silence gate: a fragment is kept when it is voice, or when the random
draw keeps it anyway (`Math.random() <= 0.25`, supplied as the oracle
`keep`). -/
def pcmAccept (keep : Bool) (f : List ℚ) : Bool := isVoice f || keep

/-- One `sendPCMDataToServer` call acting on the batch buffer: empty input
returns immediately, silence may be dropped, and an accepted fragment is
converted and pushed in order. -/
def sendPCMStep (keep : Bool) (buf : List (List ℤ)) (f : List ℚ) :
    List (List ℤ) :=
  if f.isEmpty then buf
  else if pcmAccept keep f then buf ++ [convertFragment f] else buf

/-- The batch buffer accumulated over one batch interval from a sequence of
capture callbacks (each with its random-draw oracle). -/
def accumulateBatch (calls : List (Bool × List ℚ)) : List (List ℤ) :=
  calls.foldl (fun buf kf => sendPCMStep kf.1 buf kf.2) []

/-- The raw fragments the gate accepted, in arrival order. -/
def acceptedFragments (calls : List (Bool × List ℚ)) : List (List ℚ) :=
  (calls.filter (fun kf => !kf.2.isEmpty && pcmAccept kf.1 kf.2)).map Prod.snd

/-- audio.js `concatAudioBuffers`: byte-wise concatenation of the buffers in
order, modelled at the int16-sample level. -/
def concatAudioBuffers (buffers : List (List ℤ)) : List ℤ := buffers.flatten

/-- The batch emitted when the timer fires (the single-buffer shortcut in the
source sends `audioChunkBuffer[0]`, which equals the concatenation of a
singleton). -/
def emittedBatch (calls : List (Bool × List ℚ)) : List ℤ :=
  concatAudioBuffers (accumulateBatch calls)

theorem accumulateBatch_eq_aux (calls : List (Bool × List ℚ)) :
    ∀ buf, calls.foldl (fun b kf => sendPCMStep kf.1 b kf.2) buf
      = buf ++ (acceptedFragments calls).map convertFragment := by
  induction calls with
  | nil => intro buf; simp [acceptedFragments]
  | cons kf rest ih =>
    intro buf
    by_cases hempty : kf.2.isEmpty
    · have hstep : sendPCMStep kf.1 buf kf.2 = buf := by
        simp [sendPCMStep, hempty]
      simp only [List.foldl_cons, hstep, ih buf]
      simp [acceptedFragments, List.filter_cons, hempty]
    · by_cases hacc : pcmAccept kf.1 kf.2
      · have hstep : sendPCMStep kf.1 buf kf.2 = buf ++ [convertFragment kf.2] := by
          simp [sendPCMStep, hempty, hacc]
        simp only [List.foldl_cons, hstep, ih (buf ++ [convertFragment kf.2])]
        simp [acceptedFragments, List.filter_cons, hempty, hacc]
      · have hstep : sendPCMStep kf.1 buf kf.2 = buf := by
          simp [sendPCMStep, hempty, hacc]
        simp only [List.foldl_cons, hstep, ih buf]
        simp [acceptedFragments, List.filter_cons, hempty, hacc]

theorem floatToInt16_range (x : ℚ) :
    -32768 ≤ floatToInt16 x ∧ floatToInt16 x ≤ 32767 := by
  have hlo : -1 ≤ clampSample x := le_max_left _ _
  have hhi : clampSample x ≤ 1 := max_le (by norm_num) (min_le_left _ _)
  unfold floatToInt16
  by_cases hneg : clampSample x < 0
  · rw [if_pos hneg]
    have hp : clampSample x * 32768 < 0 := by nlinarith
    have hp2 : ((-32768 : ℤ) : ℚ) ≤ clampSample x * 32768 := by push_cast; nlinarith
    unfold truncToInt
    rw [if_neg (not_le.mpr hp)]
    constructor
    · have h1 := Int.ceil_mono hp2
      rw [Int.ceil_intCast] at h1
      exact h1
    · have h1 : ⌈clampSample x * 32768⌉ ≤ (0 : ℤ) :=
        Int.ceil_le.mpr (by exact_mod_cast le_of_lt hp)
      omega
  · rw [if_neg hneg]
    push_neg at hneg
    have hp : (0 : ℚ) ≤ clampSample x * 32767 := by nlinarith
    have hp2 : clampSample x * 32767 ≤ ((32767 : ℤ) : ℚ) := by push_cast; nlinarith
    unfold truncToInt
    rw [if_pos hp]
    constructor
    · have h1 : (0 : ℤ) ≤ ⌊clampSample x * 32767⌋ := Int.floor_nonneg.mpr hp
      omega
    · have h1 := Int.floor_mono hp2
      rw [Int.floor_intCast] at h1
      exact h1

theorem accumulateBatch_eq (calls : List (Bool × List ℚ)) :
    accumulateBatch calls = (acceptedFragments calls).map convertFragment := by
  have h := accumulateBatch_eq_aux calls []
  simpa [accumulateBatch] using h

/-- C8: the batch emitted for a batch interval is exactly the in-order
sample-by-sample conversion of the concatenation of the accepted capture
fragments — the same number of int16 samples as accepted float samples, in
the original temporal order, each clamped to the unit interval and scaled
(0x8000 for negative, 0x7FFF for non-negative), so samples at or beyond ±1.0
saturate to the int16 boundaries; every converted sample lies in the int16
range. -/
theorem C8_batch_integrity (calls : List (Bool × List ℚ)) :
    emittedBatch calls = ((acceptedFragments calls).flatten).map floatToInt16
    ∧ (emittedBatch calls).length = ((acceptedFragments calls).flatten).length
    ∧ (∀ x : ℚ, 1 ≤ x → floatToInt16 x = 32767)
    ∧ (∀ x : ℚ, x ≤ -1 → floatToInt16 x = -32768)
    ∧ (∀ x : ℚ, -32768 ≤ floatToInt16 x ∧ floatToInt16 x ≤ 32767) := by
  have hjoin : emittedBatch calls
      = ((acceptedFragments calls).flatten).map floatToInt16 := by
    unfold emittedBatch concatAudioBuffers
    rw [accumulateBatch_eq]
    unfold convertFragment
    rw [List.map_flatten]
  refine ⟨hjoin, by rw [hjoin, List.length_map], ?_, ?_, fun x => floatToInt16_range x⟩
  · intro x hx
    have h1 : clampSample x = 1 := by
      unfold clampSample
      rw [min_eq_left hx]
      norm_num
    unfold floatToInt16
    rw [h1]
    norm_num [truncToInt]
  · intro x hx
    have h1 : clampSample x = -1 := by
      unfold clampSample
      rw [min_eq_right (le_trans hx (by norm_num))]
      exact max_eq_left hx
    unfold floatToInt16
    rw [h1]
    norm_num [truncToInt]
    rw [show ((-32768 : ℚ)) = ((-32768 : ℤ) : ℚ) by norm_num]
    rw [Int.ceil_intCast]

/-- C8, closed instance: a sample at the positive boundary saturates to
0x7FFF and one beyond the negative boundary to -0x8000. -/
theorem C8_batch_integrity_witness :
    floatToInt16 1 = 32767 ∧ floatToInt16 (-2) = -32768 :=
  ⟨(C8_batch_integrity []).2.2.1 1 (by norm_num),
    (C8_batch_integrity []).2.2.2.1 (-2) (by norm_num)⟩

/-! ## Capture teardown (src/app/web/openai_ptalk/static/js/audio.js,
`stopCapture` and `cleanupAudioProcessing`)

Resource handles are modelled as booleans (held / already null); each release
action the cleanup performs is recorded, so "no duplicate release" is the
statement that a second call records no actions.  `stopCapture` additionally
updates the button UI and sends the speech_end signal before cleaning up;
those are not resource releases and happen only when the guard passes. -/

/-- The capture-side module state of audio.js. -/
structure CaptureState where
  isAudioCaptureActive : Bool
  isRecording : Bool
  audioStream : Bool
  audioWorkletNode : Bool
  scriptProcessorNode : Bool
  sourceNode : Bool
deriving DecidableEq, Repr

/-- The release actions `cleanupAudioProcessing` can perform. -/
inductive ReleaseAction where
  | stopStreamTracks
  | disconnectWorklet
  | disconnectScriptProcessor
  | disconnectSource
deriving DecidableEq, Repr

/-- State before any capture was started. -/
def initialCaptureState : CaptureState := ⟨false, false, false, false, false, false⟩

/-- audio.js `cleanupAudioProcessing(reason)`: returns immediately when no
resource is active; otherwise clears `isRecording` and releases each held
resource exactly once (stream tracks, worklet node, script-processor node,
source node, in that order), nulling it. -/
def cleanupAudioProcessing (s : CaptureState) : CaptureState × List ReleaseAction :=
  if !s.isRecording && !s.sourceNode && !s.audioStream
      && !s.audioWorkletNode && !s.scriptProcessorNode then
    (s, [])
  else
    let a1 : List ReleaseAction := if s.audioStream then [.stopStreamTracks] else []
    let a2 : List ReleaseAction := if s.audioWorkletNode then [.disconnectWorklet] else []
    let a3 : List ReleaseAction := if s.scriptProcessorNode then [.disconnectScriptProcessor] else []
    let a4 : List ReleaseAction := if s.sourceNode then [.disconnectSource] else []
    ({ isAudioCaptureActive := s.isAudioCaptureActive
       isRecording := false
       audioStream := false
       audioWorkletNode := false
       scriptProcessorNode := false
       sourceNode := false }, a1 ++ a2 ++ a3 ++ a4)

/-- audio.js `stopCapture()`: a no-op when capture is not active; otherwise
clears the active flag (the speech_end signal and button update happen here)
and runs the resource cleanup. -/
def stopCapture (s : CaptureState) : CaptureState × List ReleaseAction :=
  if !s.isAudioCaptureActive then (s, [])
  else cleanupAudioProcessing { s with isAudioCaptureActive := false }

/-- C9: stopping twice in a row releases nothing twice — the second call
performs no release action and leaves the state unchanged; stopping when
capture was never started is a complete no-op; and a second cleanup after any
cleanup likewise finds every resource already null and releases nothing. -/
theorem C9_idempotent_teardown (s : CaptureState) :
    stopCapture (stopCapture s).1 = ((stopCapture s).1, [])
    ∧ stopCapture initialCaptureState = (initialCaptureState, [])
    ∧ cleanupAudioProcessing (cleanupAudioProcessing s).1
        = ((cleanupAudioProcessing s).1, []) := by
  obtain ⟨a, b, c, d, e, f⟩ := s
  revert a b c d e f
  decide

end NutritionClient
